import Mathlib

set_option maxHeartbeats 1000000

/-!
Verification of the `rust-queue` fixed-capacity FIFO ring buffer.

The development shallowly embeds the two implementations:

* `BasicTypedQueue` mirrors `src/basic_typed_queue.rs`: a struct with
  `size`, `head`, `tail` and a fixed-length buffer of `CAPACITY` slots.
  `MaybeUninit<T>` storage is modelled as a `List T` whose initial contents
  (`junk`) are arbitrary bits: the Rust code copies raw slot contents, so a
  read of a dead slot yields whatever was last stored there.
* `ThreadSafeTypedQueue` mirrors `src/thread_safe_typed_queue.rs`: the
  mutex-protected `QueueData` plus the separately maintained atomic `size`.
  Since the lock serializes every mutator, each operation is embedded as an
  atomic state transformation; mutex poisoning is modelled by a `poisoned`
  flag, and `lock()` fails exactly when it is set.

Machine integers (`usize`) are modelled as `Nat`; all index arithmetic in the
source is `(x + 1) % CAPACITY` / `(tail + CAPACITY - 1) % CAPACITY`, which
never overflows for the sizes involved, so `Nat` arithmetic is faithful.
Fallible operations return `Except QueueError`; `pop_ref`'s out-parameter is
threaded explicitly as a value.
-/

/-- Mirrors `QueueError` of `src/typed_queue.rs`. The `MutexPoisoned`
constructor is constructed by `src/thread_safe_typed_queue.rs` (it is missing
from the enum declaration in `src/typed_queue.rs`, a slip of the source);
its declaration is modelled from the spec's error taxonomy. -/
inductive QueueError where
  | QueueEmpty
  | QueueFull
  | MutexPoisoned
deriving DecidableEq, Repr

/-- Mirrors `BasicTypedQueue<T, CAPACITY>` of `src/basic_typed_queue.rs`.
The `MaybeUninit<T>` buffer is a `List T` of length `CAPACITY` holding
arbitrary bits in dead slots. -/
structure BasicTypedQueue (T : Type) (CAPACITY : Nat) where
  size : Nat
  head : Nat
  tail : Nat
  buffer : List T
deriving DecidableEq, Repr

variable {T : Type} {N : Nat}

/-- `BasicTypedQueue::new()`: `size = head = tail = 0`; the buffer holds
uninitialized bits, modelled by an arbitrary `junk` list. -/
def BasicTypedQueue.new (junk : List T) : BasicTypedQueue T N :=
  ⟨0, 0, 0, junk⟩

/-- `BasicTypedQueue::capacity()`. -/
def BasicTypedQueue.capacity (_ : BasicTypedQueue T N) : Nat := N

/-- `BasicTypedQueue::is_full()`: `self.size() == CAPACITY`. -/
def BasicTypedQueue.is_full (q : BasicTypedQueue T N) : Bool :=
  q.size == N

/-- `BasicTypedQueue::is_empty()`: `self.size() == 0`. -/
def BasicTypedQueue.is_empty (q : BasicTypedQueue T N) : Bool :=
  q.size == 0

/-- `BasicTypedQueue::front()`: error on empty, else read the slot at
`head`. -/
def BasicTypedQueue.front [Inhabited T] (q : BasicTypedQueue T N) :
    Except QueueError T :=
  if q.is_empty then .error .QueueEmpty
  else .ok (q.buffer.getD q.head default)

/-- The index `(self.tail + CAPACITY - 1) % CAPACITY` computed by
`BasicTypedQueue::back()`. -/
def BasicTypedQueue.back_idx (q : BasicTypedQueue T N) : Nat :=
  (q.tail + N - 1) % N

/-- `BasicTypedQueue::back()`: error on empty, else read the slot at
`(tail + CAPACITY - 1) % CAPACITY`. -/
def BasicTypedQueue.back [Inhabited T] (q : BasicTypedQueue T N) :
    Except QueueError T :=
  if q.is_empty then .error .QueueEmpty
  else .ok (q.buffer.getD q.back_idx default)

/-- `BasicTypedQueue::push_ref()`: fail with `QueueFull` if full, else write
the slot at `tail`, advance `tail` mod `CAPACITY`, increment `size`. -/
def BasicTypedQueue.push_ref (q : BasicTypedQueue T N) (input : T) :
    Except QueueError Unit × BasicTypedQueue T N :=
  if q.is_full then (.error .QueueFull, q)
  else
    (.ok (), { q with
      buffer := q.buffer.set q.tail input
      tail := (q.tail + 1) % N
      size := q.size + 1 })

/-- `BasicTypedQueue::push()`: delegates to `push_ref`. -/
def BasicTypedQueue.push (q : BasicTypedQueue T N) (input : T) :
    Except QueueError Unit × BasicTypedQueue T N :=
  q.push_ref input

/-- `BasicTypedQueue::push_ref_overwrite()`: unconditionally write the slot at
`tail`, advance `tail` mod `CAPACITY`, set `size := min (size + 1) CAPACITY`. -/
def BasicTypedQueue.push_ref_overwrite (q : BasicTypedQueue T N) (input : T) :
    Except QueueError Unit × BasicTypedQueue T N :=
  (.ok (), { q with
    buffer := q.buffer.set q.tail input
    tail := (q.tail + 1) % N
    size := min (q.size + 1) N })

/-- `BasicTypedQueue::push_overwrite()`: delegates to `push_ref_overwrite`. -/
def BasicTypedQueue.push_overwrite (q : BasicTypedQueue T N) (input : T) :
    Except QueueError Unit × BasicTypedQueue T N :=
  q.push_ref_overwrite input

/-- `BasicTypedQueue::pop_ref()`: fail with `QueueEmpty` on empty (leaving the
out-parameter untouched), else copy the slot at `head` into the out-parameter,
advance `head` mod `CAPACITY`, decrement `size`. The result triple is
(result, new queue state, final out-parameter contents). -/
def BasicTypedQueue.pop_ref [Inhabited T] (q : BasicTypedQueue T N)
    (output : T) : Except QueueError Unit × BasicTypedQueue T N × T :=
  if q.is_empty then (.error .QueueEmpty, q, output)
  else
    (.ok (), { q with
        head := (q.head + 1) % N
        size := q.size - 1 },
      q.buffer.getD q.head default)

/-- `BasicTypedQueue::pop()`: call `pop_ref` on an uninitialized local
(modelled by `default`), return its contents on success. -/
def BasicTypedQueue.pop [Inhabited T] (q : BasicTypedQueue T N) :
    Except QueueError T × BasicTypedQueue T N :=
  match q.pop_ref default with
  | (.ok _, q2, v) => (.ok v, q2)
  | (.error e, q2, _) => (.error e, q2)

/-- Mirrors `QueueData<T, CAPACITY>` of `src/thread_safe_typed_queue.rs`: the
head/tail/buffer triple protected by the mutex. -/
structure QueueData (T : Type) (CAPACITY : Nat) where
  head : Nat
  tail : Nat
  buffer : List T
deriving DecidableEq, Repr

/-- Mirrors `ThreadSafeTypedQueue<T, CAPACITY>`: the atomic `size` counter
plus the mutex-protected data. `poisoned` models the mutex's poisoned state:
`lock()` returns `Err` exactly when a previous holder panicked, and every
operation embedded here acquires the lock first, so each is modelled as one
atomic state transformation guarded by `poisoned`. -/
structure ThreadSafeTypedQueue (T : Type) (CAPACITY : Nat) where
  size : Nat
  poisoned : Bool
  protected_data : QueueData T CAPACITY
deriving DecidableEq, Repr

/-- `ThreadSafeTypedQueue::new()`: atomic size 0, fresh (unpoisoned) mutex,
default `QueueData` with uninitialized (junk) buffer bits. -/
def ThreadSafeTypedQueue.new (junk : List T) : ThreadSafeTypedQueue T N :=
  ⟨0, false, ⟨0, 0, junk⟩⟩

/-- `ThreadSafeTypedQueue::capacity()`. -/
def ThreadSafeTypedQueue.capacity (_ : ThreadSafeTypedQueue T N) : Nat := N

/-- `ThreadSafeTypedQueue::size()`: lock-free read of the atomic counter. -/
def ThreadSafeTypedQueue.sizeAtomic (q : ThreadSafeTypedQueue T N) : Nat :=
  q.size

/-- `ThreadSafeTypedQueue::is_full()`: `self.size() == CAPACITY`, lock-free. -/
def ThreadSafeTypedQueue.is_full (q : ThreadSafeTypedQueue T N) : Bool :=
  q.size == N

/-- `ThreadSafeTypedQueue::is_empty()`: `self.size() == 0`, lock-free. -/
def ThreadSafeTypedQueue.is_empty (q : ThreadSafeTypedQueue T N) : Bool :=
  q.size == 0

/-- `ThreadSafeTypedQueue::push_ref()`: `MutexPoisoned` if the lock is
poisoned; `QueueFull` (checked via the atomic size while holding the lock) if
full; else write at `tail`, advance `tail` mod `CAPACITY`, `fetch_add(1)` on
the atomic size. -/
def ThreadSafeTypedQueue.push_ref (q : ThreadSafeTypedQueue T N) (input : T) :
    Except QueueError Unit × ThreadSafeTypedQueue T N :=
  if q.poisoned then (.error .MutexPoisoned, q)
  else if q.is_full then (.error .QueueFull, q)
  else
    (.ok (), { q with
      protected_data := { q.protected_data with
        buffer := q.protected_data.buffer.set q.protected_data.tail input
        tail := (q.protected_data.tail + 1) % N }
      size := q.size + 1 })

/-- `ThreadSafeTypedQueue::push()`: delegates to `push_ref`. -/
def ThreadSafeTypedQueue.push (q : ThreadSafeTypedQueue T N) (input : T) :
    Except QueueError Unit × ThreadSafeTypedQueue T N :=
  q.push_ref input

/-- `ThreadSafeTypedQueue::push_ref_overwrite()`: `MutexPoisoned` if the lock
is poisoned; else write at `tail`, advance `tail` mod `CAPACITY`, store
`min (size + 1) CAPACITY` into the atomic size. -/
def ThreadSafeTypedQueue.push_ref_overwrite (q : ThreadSafeTypedQueue T N)
    (input : T) : Except QueueError Unit × ThreadSafeTypedQueue T N :=
  if q.poisoned then (.error .MutexPoisoned, q)
  else
    (.ok (), { q with
      protected_data := { q.protected_data with
        buffer := q.protected_data.buffer.set q.protected_data.tail input
        tail := (q.protected_data.tail + 1) % N }
      size := min (q.size + 1) N })

/-- `ThreadSafeTypedQueue::push_overwrite()`: delegates to
`push_ref_overwrite`. -/
def ThreadSafeTypedQueue.push_overwrite (q : ThreadSafeTypedQueue T N)
    (input : T) : Except QueueError Unit × ThreadSafeTypedQueue T N :=
  q.push_ref_overwrite input

/-- `ThreadSafeTypedQueue::pop_ref()`: `MutexPoisoned` if the lock is
poisoned; `QueueEmpty` if empty; else copy the slot at `head` into the
out-parameter, advance `head` mod `CAPACITY`, `fetch_sub(1)` on the atomic
size. -/
def ThreadSafeTypedQueue.pop_ref [Inhabited T] (q : ThreadSafeTypedQueue T N)
    (output : T) : Except QueueError Unit × ThreadSafeTypedQueue T N × T :=
  if q.poisoned then (.error .MutexPoisoned, q, output)
  else if q.is_empty then (.error .QueueEmpty, q, output)
  else
    (.ok (), { q with
        protected_data := { q.protected_data with
          head := (q.protected_data.head + 1) % N }
        size := q.size - 1 },
      q.protected_data.buffer.getD q.protected_data.head default)

/-- `ThreadSafeTypedQueue::pop()`: call `pop_ref` on an uninitialized local
(modelled by `default`), return its contents on success. -/
def ThreadSafeTypedQueue.pop [Inhabited T] (q : ThreadSafeTypedQueue T N) :
    Except QueueError T × ThreadSafeTypedQueue T N :=
  match q.pop_ref default with
  | (.ok _, q2, v) => (.ok v, q2)
  | (.error e, q2, _) => (.error e, q2)

/-- `ThreadSafeTypedQueue::front()`: `MutexPoisoned` if the lock is poisoned;
`QueueEmpty` if empty; else the value the returned `RefGuard` dereferences to,
namely the slot at `head`. -/
def ThreadSafeTypedQueue.front [Inhabited T] (q : ThreadSafeTypedQueue T N) :
    Except QueueError T :=
  if q.poisoned then .error .MutexPoisoned
  else if q.is_empty then .error .QueueEmpty
  else .ok (q.protected_data.buffer.getD q.protected_data.head default)

/-- `ThreadSafeTypedQueue::back()`: `MutexPoisoned` if the lock is poisoned;
`QueueEmpty` if empty; else the value the returned `RefGuard` dereferences to,
namely the slot at `(tail + CAPACITY - 1) % CAPACITY`. -/
def ThreadSafeTypedQueue.back [Inhabited T] (q : ThreadSafeTypedQueue T N) :
    Except QueueError T :=
  if q.poisoned then .error .MutexPoisoned
  else if q.is_empty then .error .QueueEmpty
  else .ok (q.protected_data.buffer.getD
    ((q.protected_data.tail + N - 1) % N) default)

/-- Structural well-formedness of a queue state: size within capacity, both
indices within `[0, CAPACITY)`, buffer of the declared fixed length. -/
abbrev BasicTypedQueue.WF (q : BasicTypedQueue T N) : Prop :=
  q.size ≤ N ∧ q.head < N ∧ q.tail < N ∧ q.buffer.length = N

/-- The ring-buffer position invariant `tail == (head + size) mod CAPACITY`
claimed by the spec. -/
abbrev BasicTypedQueue.TailInv (q : BasicTypedQueue T N) : Prop :=
  q.tail = (q.head + q.size) % N

/-- The abstract FIFO contents of the queue: the `size` live slots starting
at `head`, advancing circularly. -/
def BasicTypedQueue.toList [Inhabited T] (q : BasicTypedQueue T N) : List T :=
  (List.range q.size).map (fun i => q.buffer.getD ((q.head + i) % N) default)

/-- Whether buffer index `j` lies in the live region: the `size` slots
starting at `head`, advancing circularly. -/
def BasicTypedQueue.isLive (q : BasicTypedQueue T N) (j : Nat) : Bool :=
  (List.range q.size).any (fun i => (q.head + i) % N == j)

/-- The operations of the mutating interface. `push` and `push_overwrite`
delegate to `push_ref` / `push_ref_overwrite` in the source, so the reference
variants perform identical state transformations. -/
inductive Op (T : Type) where
  | push (v : T)
  | push_overwrite (v : T)
  | pop
deriving DecidableEq, Repr

/-- Apply one operation to the queue state, discarding results/output. -/
def BasicTypedQueue.step [Inhabited T] (q : BasicTypedQueue T N) :
    Op T → BasicTypedQueue T N
  | .push v => (q.push v).2
  | .push_overwrite v => (q.push_overwrite v).2
  | .pop => (q.pop).2

/-- Apply a sequence of operations to the queue state. -/
def BasicTypedQueue.run [Inhabited T] (q : BasicTypedQueue T N) :
    List (Op T) → BasicTypedQueue T N
  | [] => q
  | op :: ops => (q.step op).run ops

/-- An operation sequence never applies `push_overwrite` to a full queue. -/
def BasicTypedQueue.safeRun [Inhabited T] (q : BasicTypedQueue T N) :
    List (Op T) → Bool
  | [] => true
  | op :: ops =>
    (match op with
      | .push_overwrite _ => decide (q.size < N)
      | _ => true) && (q.step op).safeRun ops

/-- Pop `k` times, collecting the successfully popped values in order;
stop early if a pop fails. -/
def BasicTypedQueue.popN [Inhabited T] (q : BasicTypedQueue T N) :
    Nat → List T × BasicTypedQueue T N
  | 0 => ([], q)
  | k + 1 =>
    match q.pop with
    | (.ok v, q2) =>
      let r := q2.popN k
      (v :: r.1, r.2)
    | (.error _, q2) => ([], q2)

/-- Push each value of the list in order, discarding results. -/
def BasicTypedQueue.pushAll (q : BasicTypedQueue T N) :
    List T → BasicTypedQueue T N
  | [] => q
  | v :: vs => ((q.push v).2).pushAll vs

theorem getD_set_ne (l : List T) (a d : T) {i j : Nat} (h : j ≠ i) :
    (l.set j a).getD i d = l.getD i d := by
  rw [List.getD_eq_getD_get?, List.getD_eq_getD_get?, List.get?_eq_getElem?,
    List.get?_eq_getElem?, List.getElem?_set_ne h]

theorem getD_set_self (l : List T) (a d : T) {j : Nat} (hj : j < l.length) :
    (l.set j a).getD j d = a := by
  rw [List.getD_eq_getD_get?, List.get?_eq_getElem?, List.getElem?_set_self hj]
  rfl

/-- Two circular offsets from the same origin are distinct slots as long as
they differ by less than a full revolution. -/
theorem ring_idx_ne {i s hd : Nat} (hi : i < s) (hs : s < N) :
    (hd + i) % N ≠ (hd + s) % N := by
  intro h
  have hdvd : N ∣ hd + s - (hd + i) := (Nat.modEq_iff_dvd' (by omega)).mp h
  have h2 : hd + s - (hd + i) = s - i := by omega
  rw [h2] at hdvd
  have := Nat.le_of_dvd (by omega) hdvd
  omega

theorem push_eq_of_not_full (q : BasicTypedQueue T N) (v : T)
    (h : q.size ≠ N) :
    q.push v = (.ok (), { q with
      buffer := q.buffer.set q.tail v
      tail := (q.tail + 1) % N
      size := q.size + 1 }) := by
  simp [BasicTypedQueue.push, BasicTypedQueue.push_ref,
    BasicTypedQueue.is_full, h]

theorem pop_eq_of_not_empty [Inhabited T] (q : BasicTypedQueue T N)
    (h : q.size ≠ 0) :
    q.pop = (.ok (q.buffer.getD q.head default), { q with
      head := (q.head + 1) % N
      size := q.size - 1 }) := by
  simp [BasicTypedQueue.pop, BasicTypedQueue.pop_ref,
    BasicTypedQueue.is_empty, h]

/-- A successful `push` appends the value to the abstract FIFO contents and
preserves the structural and position invariants. -/
theorem toList_push [Inhabited T] (q : BasicTypedQueue T N) (v : T)
    (hwf : q.WF) (ht : q.TailInv) (hlt : q.size < N) :
    ((q.push v).2).toList = q.toList ++ [v] ∧ ((q.push v).2).WF ∧
      ((q.push v).2).TailInv ∧ ((q.push v).2).size = q.size + 1 := by
  obtain ⟨hs, hh, htl, hb⟩ := hwf
  have hN : 0 < N := Nat.lt_of_le_of_lt (Nat.zero_le _) hlt
  rw [push_eq_of_not_full q v (by omega)]
  dsimp only
  refine ⟨?_, ⟨show q.size + 1 ≤ N by omega, hh, Nat.mod_lt _ hN,
    show (q.buffer.set q.tail v).length = N by simp [hb]⟩, ?_, rfl⟩
  · simp only [BasicTypedQueue.toList, List.range_succ, List.map_append,
      List.map_cons, List.map_nil]
    congr 1
    · apply List.map_congr_left
      intro i hi
      have hi' : i < q.size := List.mem_range.mp hi
      apply getD_set_ne
      rw [ht]
      exact (ring_idx_ne hi' hlt).symm
    · rw [show (q.head + q.size) % N = q.tail from ht.symm,
        getD_set_self _ _ _ (by rw [hb]; exact htl)]
  · show (q.tail + 1) % N = (q.head + (q.size + 1)) % N
    rw [ht, Nat.mod_add_mod, Nat.add_assoc]

/-- A successful `pop` removes the first element of the abstract FIFO contents
and preserves the structural and position invariants. -/
theorem toList_pop [Inhabited T] (q : BasicTypedQueue T N)
    (hwf : q.WF) (hne : q.size ≠ 0) :
    q.toList = q.buffer.getD q.head default :: ((q.pop).2).toList ∧
      ((q.pop).2).WF ∧ (q.TailInv → ((q.pop).2).TailInv) ∧
      ((q.pop).2).size = q.size - 1 := by
  obtain ⟨hs, hh, htl, hb⟩ := hwf
  have hN : 0 < N := Nat.lt_of_le_of_lt (Nat.zero_le _) hh
  rw [pop_eq_of_not_empty q hne]
  dsimp only
  obtain ⟨n, hn⟩ : ∃ n, q.size = n + 1 := ⟨q.size - 1, by omega⟩
  refine ⟨?_, ⟨show q.size - 1 ≤ N by omega, Nat.mod_lt _ hN, htl, hb⟩, ?_,
    rfl⟩
  · simp only [BasicTypedQueue.toList, hn, Nat.add_sub_cancel,
      List.range_succ_eq_map, List.map_cons, List.map_map]
    rw [Nat.add_zero, Nat.mod_eq_of_lt hh]
    congr 1
    apply List.map_congr_left
    intro i _
    simp only [Function.comp_apply]
    rw [Nat.mod_add_mod, show q.head + 1 + i = q.head + i.succ by omega]
  · intro htinv
    show q.tail = ((q.head + 1) % N + (q.size - 1)) % N
    rw [htinv, Nat.mod_add_mod]
    congr 1
    omega

/-- On a non-full queue, the overwriting push performs exactly the state
transformation of the plain push (`min (size + 1) CAPACITY = size + 1`). -/
theorem push_overwrite_eq_push (q : BasicTypedQueue T N) (v : T)
    (h : q.size < N) : q.push_overwrite v = q.push v := by
  rw [push_eq_of_not_full q v (by omega)]
  simp [BasicTypedQueue.push_overwrite, BasicTypedQueue.push_ref_overwrite,
    Nat.min_eq_left (show q.size + 1 ≤ N by omega)]

/-- Pushing a list into a queue with enough free space appends it to the
abstract FIFO contents and preserves the invariants. -/
theorem pushAll_spec [Inhabited T] (vs : List T) :
    ∀ q : BasicTypedQueue T N, q.WF → q.TailInv →
      q.size + vs.length ≤ N →
      (q.pushAll vs).toList = q.toList ++ vs ∧ (q.pushAll vs).WF ∧
        (q.pushAll vs).TailInv ∧
        (q.pushAll vs).size = q.size + vs.length := by
  induction vs with
  | nil =>
    intro q hwf ht _
    simpa [BasicTypedQueue.pushAll] using ⟨hwf, ht⟩
  | cons v vs ih =>
    intro q hwf ht hlen
    simp only [List.length_cons] at hlen
    have hlt : q.size < N := by omega
    obtain ⟨h1, h2, h3, h4⟩ := toList_push q v hwf ht hlt
    have hrec := ih (q.push v).2 h2 h3 (by rw [h4]; omega)
    refine ⟨?_, ?_, ?_, ?_⟩ <;> simp only [BasicTypedQueue.pushAll]
    · rw [hrec.1, h1, List.append_assoc, List.singleton_append]
    · exact hrec.2.1
    · exact hrec.2.2.1
    · rw [hrec.2.2.2, h4, List.length_cons]
      omega

/-- Popping exactly `size` times yields the abstract FIFO contents. -/
theorem popN_toList [Inhabited T] :
    ∀ (n : Nat) (q : BasicTypedQueue T N), q.WF → q.size = n →
      (q.popN n).1 = q.toList := by
  intro n
  induction n with
  | zero =>
    intro q _ h0
    simp [BasicTypedQueue.popN, BasicTypedQueue.toList, h0]
  | succ n ih =>
    intro q hwf hn
    obtain ⟨h1, h2, _, h4⟩ := toList_pop q hwf (by omega)
    have hq2 := ih (q.pop).2 h2 (by rw [h4]; omega)
    simp only [BasicTypedQueue.popN]
    rw [pop_eq_of_not_empty q (by omega)] at hq2 h1 ⊢
    dsimp only at hq2 h1 ⊢
    rw [hq2]
    exact h1.symm

/-- After a successful push, `back()` returns the value just pushed. -/
theorem back_of_push [Inhabited T] (q : BasicTypedQueue T N) (v : T)
    (hwf : q.WF) (hlt : q.size < N) :
    ((q.push v).2).back = .ok v := by
  obtain ⟨hs, hh, htl, hb⟩ := hwf
  rw [push_eq_of_not_full q v (by omega)]
  dsimp only
  simp only [BasicTypedQueue.back, BasicTypedQueue.is_empty,
    BasicTypedQueue.back_idx]
  rw [if_neg (by simp)]
  have hidx : ((q.tail + 1) % N + N - 1) % N = q.tail := by
    rw [show (q.tail + 1) % N + N - 1 = (q.tail + 1) % N + (N - 1) by omega,
      Nat.mod_add_mod, show q.tail + 1 + (N - 1) = q.tail + N by omega,
      Nat.add_mod_right, Nat.mod_eq_of_lt htl]
  rw [hidx, getD_set_self _ _ _ (by rw [hb]; exact htl)]

/-- One step never grows `size` beyond the capacity. -/
theorem step_size_le [Inhabited T] (q : BasicTypedQueue T N) (op : Op T)
    (h : q.size ≤ N) : (q.step op).size ≤ N := by
  cases op with
  | push v =>
    by_cases hf : q.size = N
    · have heq : q.push v = (.error .QueueFull, q) := by
        simp [BasicTypedQueue.push, BasicTypedQueue.push_ref,
          BasicTypedQueue.is_full, hf]
      simp [BasicTypedQueue.step, heq, h]
    · rw [BasicTypedQueue.step, push_eq_of_not_full q v hf]
      show q.size + 1 ≤ N
      omega
  | push_overwrite v =>
    show min (q.size + 1) N ≤ N
    exact Nat.min_le_right _ _
  | pop =>
    by_cases he : q.size = 0
    · have heq : q.pop = (.error .QueueEmpty, q) := by
        simp [BasicTypedQueue.pop, BasicTypedQueue.pop_ref,
          BasicTypedQueue.is_empty, he]
      simp [BasicTypedQueue.step, heq, h]
    · rw [BasicTypedQueue.step, pop_eq_of_not_empty q he]
      show q.size - 1 ≤ N
      omega

/-- A whole run never grows `size` beyond the capacity. -/
theorem run_size_le [Inhabited T] (ops : List (Op T)) :
    ∀ q : BasicTypedQueue T N, q.size ≤ N → (q.run ops).size ≤ N := by
  induction ops with
  | nil => intro q h; exact h
  | cons op ops ih =>
    intro q h
    exact ih _ (step_size_le q op h)

/-- One step that does not overwrite into a full queue preserves structural
well-formedness and the `tail = (head + size) mod CAPACITY` invariant. -/
theorem step_wf_tailInv [Inhabited T] (q : BasicTypedQueue T N) (op : Op T)
    (_hN : 0 < N) (hwf : q.WF) (ht : q.TailInv)
    (hs : (match op with
      | .push_overwrite _ => decide (q.size < N)
      | _ => true) = true) :
    (q.step op).WF ∧ (q.step op).TailInv := by
  cases op with
  | push v =>
    by_cases hf : q.size = N
    · have heq : q.push v = (.error .QueueFull, q) := by
        simp [BasicTypedQueue.push, BasicTypedQueue.push_ref,
          BasicTypedQueue.is_full, hf]
      simp only [BasicTypedQueue.step, heq]
      exact ⟨hwf, ht⟩
    · obtain ⟨_, h2, h3, _⟩ :=
        toList_push q v hwf ht (Nat.lt_of_le_of_ne hwf.1 hf)
      exact ⟨h2, h3⟩
  | push_overwrite v =>
    have hlt : q.size < N := of_decide_eq_true hs
    show ((q.push_overwrite v).2).WF ∧ ((q.push_overwrite v).2).TailInv
    rw [push_overwrite_eq_push q v hlt]
    obtain ⟨_, h2, h3, _⟩ := toList_push q v hwf ht hlt
    exact ⟨h2, h3⟩
  | pop =>
    by_cases he : q.size = 0
    · have heq : q.pop = (.error .QueueEmpty, q) := by
        simp [BasicTypedQueue.pop, BasicTypedQueue.pop_ref,
          BasicTypedQueue.is_empty, he]
      simp only [BasicTypedQueue.step, heq]
      exact ⟨hwf, ht⟩
    · obtain ⟨_, h2, h3, _⟩ := toList_pop q hwf he
      exact ⟨h2, h3 ht⟩

/-- A run that never overwrites into a full queue preserves structural
well-formedness and the position invariant. -/
theorem run_wf_tailInv [Inhabited T] (ops : List (Op T)) :
    ∀ q : BasicTypedQueue T N, 0 < N → q.WF → q.TailInv →
      q.safeRun ops = true → (q.run ops).WF ∧ (q.run ops).TailInv := by
  induction ops with
  | nil => intro q _ hwf ht _; exact ⟨hwf, ht⟩
  | cons op ops ih =>
    intro q hN hwf ht hsafe
    simp only [BasicTypedQueue.safeRun, Bool.and_eq_true] at hsafe
    obtain ⟨hstep1, hstep2⟩ := step_wf_tailInv q op hN hwf ht hsafe.1
    exact ih _ hN hstep1 hstep2 hsafe.2

/-- C1: FIFO order. From any well-formed empty queue state (any head/tail
position with `tail = head`, in particular the states reached by filling to
half capacity and draining, or filling to full capacity and draining —
wraparound included), pushing `v0..v(k-1)` with `k ≤ capacity` in order and
then popping `k` times yields `v0..v(k-1)` in the same order. -/
theorem c1_fifo_order [Inhabited T] (q : BasicTypedQueue T N) (vs : List T)
    (hwf : q.WF) (ht : q.TailInv) (h0 : q.size = 0)
    (hlen : vs.length ≤ N) :
    ((q.pushAll vs).popN vs.length).1 = vs := by
  have hempty : q.toList = [] := by
    simp [BasicTypedQueue.toList, h0]
  have h := pushAll_spec vs q hwf ht (by omega)
  have h2 := popN_toList vs.length (q.pushAll vs) h.2.1
    (by rw [h.2.2.2, h0]; omega)
  rw [h2, h.1, hempty, List.nil_append]

/-- Witness for C1: the wraparound scenario of the spec at capacity 16 —
fill to half capacity, drain fully (head and tail now sit at 8), then push
`0..15` and pop 16 times: the popped order equals the push order. -/
theorem c1_fifo_order_witness :
    ((((BasicTypedQueue.new (List.replicate 16 0) :
            BasicTypedQueue Nat 16).run
        [.push 100, .push 101, .push 102, .push 103, .push 104, .push 105,
          .push 106, .push 107, .pop, .pop, .pop, .pop, .pop, .pop, .pop,
          .pop]).pushAll
        [0, 1, 2, 3, 4, 5, 6, 7, 8, 9, 10, 11, 12, 13, 14, 15]).popN
        16).1 =
      [0, 1, 2, 3, 4, 5, 6, 7, 8, 9, 10, 11, 12, 13, 14, 15] :=
  c1_fifo_order _ _ (by decide) (by decide) (by decide) (by decide)

/-- C2: overwrite semantics. Filling a capacity-16 queue with `0..15`, then
calling `push_overwrite 16`, then popping 16 times yields `16` first (the
new value, not `0`), followed by `1..15` in order. -/
theorem c2_overwrite_pop :
    ((((BasicTypedQueue.new (List.replicate 16 0) :
            BasicTypedQueue Nat 16).pushAll
        [0, 1, 2, 3, 4, 5, 6, 7, 8, 9, 10, 11, 12, 13, 14, 15]).push_overwrite
        16).2.popN 16).1 =
      [16, 1, 2, 3, 4, 5, 6, 7, 8, 9, 10, 11, 12, 13, 14, 15] := by
  decide

/-- C3 (amended): queue-state invariant. For every state reachable from the
empty queue by a sequence of push / push_overwrite / pop (and hence their
delegating reference variants) that never applies the overwriting push to a
full queue, `tail = (head + size) mod CAPACITY` holds, together with
`size ≤ CAPACITY` and `head, tail ∈ [0, CAPACITY)`. An overwriting push on a
full queue advances `tail` without touching `head` or `size` and breaks the
equation — see the counterexample. -/
theorem c3_tail_invariant [Inhabited T] (junk : List T) (ops : List (Op T))
    (hN : 0 < N) (hjunk : junk.length = N)
    (hsafe : (BasicTypedQueue.new junk : BasicTypedQueue T N).safeRun ops
      = true) :
    ((BasicTypedQueue.new junk : BasicTypedQueue T N).run ops).WF ∧
      ((BasicTypedQueue.new junk : BasicTypedQueue T N).run ops).TailInv :=
  run_wf_tailInv ops _ hN ⟨Nat.zero_le _, hN, hN, hjunk⟩
    (show (0 : Nat) = (0 + 0) % N by simp) hsafe

/-- Witness for C3: a capacity-2 run that pushes, pops and overwrites into a
non-full queue keeps the invariant. -/
theorem c3_tail_invariant_witness :
    ((BasicTypedQueue.new [0, 0] : BasicTypedQueue Nat 2).run
        [.push 10, .push 11, .pop, .push_overwrite 12, .pop, .pop]).WF ∧
      ((BasicTypedQueue.new [0, 0] : BasicTypedQueue Nat 2).run
        [.push 10, .push 11, .pop, .push_overwrite 12, .pop, .pop]).TailInv :=
  c3_tail_invariant [0, 0] _ (by decide) (by decide) (by decide)

/-- C3 counterexample: applying `push_overwrite` to a full capacity-2 queue
reaches a state with `tail = 1` but `(head + size) mod 2 = 0`, so the claimed
invariant `tail == (head + size) mod N` does not hold for every reachable
state. -/
theorem c3_counterexample :
    ¬ ((BasicTypedQueue.new [0, 0] : BasicTypedQueue Nat 2).run
        [.push 10, .push 11, .push_overwrite 12]).TailInv := by
  decide

/-- C4 (amended): for every non-empty well-formed queue state satisfying the
position invariant `tail = (head + size) mod CAPACITY` (equivalently, every
state reachable without overwriting into a full queue), `back()` returns the
element at index `(tail - 1) mod CAPACITY`; that index equals
`(head + size - 1) mod CAPACITY`, the live slot holding the newest element of
the live region, and after a push on a non-full queue `back()` returns the
value just pushed. Without the position invariant the index `back()` reads
can fall outside the live region — see the counterexample. -/
theorem c4_back_newest [Inhabited T] (q : BasicTypedQueue T N)
    (hwf : q.WF) (ht : q.TailInv) (hne : q.size ≠ 0) :
    q.back = .ok (q.buffer.getD q.back_idx default) ∧
      q.back_idx = (q.head + (q.size - 1)) % N ∧
      q.isLive q.back_idx = true ∧
      q.back = .ok (q.toList.getD (q.size - 1) default) ∧
      (∀ v, q.size < N → ((q.push v).2).back = .ok v) := by
  obtain ⟨hs, hh, htl, hb⟩ := hwf
  have hback : q.back = .ok (q.buffer.getD q.back_idx default) := by
    simp [BasicTypedQueue.back, BasicTypedQueue.is_empty, hne]
  have hidx : q.back_idx = (q.head + (q.size - 1)) % N := by
    show (q.tail + N - 1) % N = _
    rw [ht,
      show (q.head + q.size) % N + N - 1 = (q.head + q.size) % N + (N - 1)
        by omega,
      Nat.mod_add_mod,
      show q.head + q.size + (N - 1) = q.head + (q.size - 1) + N by omega,
      Nat.add_mod_right]
  refine ⟨hback, hidx, ?_, ?_,
    fun v hv => back_of_push q v ⟨hs, hh, htl, hb⟩ hv⟩
  · simp only [BasicTypedQueue.isLive, List.any_eq_true]
    exact ⟨q.size - 1, List.mem_range.mpr (by omega),
      by rw [hidx]; exact beq_self_eq_true _⟩
  · rw [hback]
    congr 1
    have hlen : q.toList.length = q.size := by
      simp [BasicTypedQueue.toList]
    have hrhs : q.toList.getD (q.size - 1) default
        = q.buffer.getD ((q.head + (q.size - 1)) % N) default := by
      rw [List.getD_eq_getElem _ _
        (show q.size - 1 < q.toList.length by rw [hlen]; omega)]
      simp only [BasicTypedQueue.toList, List.getElem_map, List.getElem_range]
    rw [hrhs, hidx]

/-- Witness for C4: a well-formed one-element capacity-2 queue whose `back()`
index is live. -/
theorem c4_back_newest_witness :
    (⟨1, 0, 1, [5, 6]⟩ : BasicTypedQueue Nat 2).isLive
        ((⟨1, 0, 1, [5, 6]⟩ : BasicTypedQueue Nat 2).back_idx) = true :=
  (c4_back_newest _ (by decide) (by decide) (by decide)).2.2.1

/-- C4 counterexample: after `push 10, push 11, push_overwrite 12, pop, pop,
push 13` on a capacity-2 queue, the queue is non-empty yet the index
`(tail - 1) mod 2` that `back()` reads lies outside the live region (the live
slots are the `size` slots starting at `head`), so `back()` reads a dead
slot. -/
theorem c4_counterexample :
    ((BasicTypedQueue.new [0, 0] : BasicTypedQueue Nat 2).run
        [.push 10, .push 11, .push_overwrite 12, .pop, .pop, .push 13]).is_empty
        = false ∧
      ((BasicTypedQueue.new [0, 0] : BasicTypedQueue Nat 2).run
          [.push 10, .push 11, .push_overwrite 12, .pop, .pop, .push 13]).isLive
        (((BasicTypedQueue.new [0, 0] : BasicTypedQueue Nat 2).run
          [.push 10, .push 11, .push_overwrite 12, .pop, .pop,
            .push 13]).back_idx) = false := by
  decide

/-- C5: error contracts with atomicity. Pushing into a full queue returns
`QueueFull` and leaves the entire state (size, head, tail, buffer) unchanged;
popping an empty queue returns `QueueEmpty` and leaves the state (and, for
`pop_ref`, the caller's output storage) unchanged; `front()` and `back()` on
an empty queue return `QueueEmpty`. -/
theorem c5_error_contracts [Inhabited T] (q : BasicTypedQueue T N)
    (v out : T) :
    (q.is_full = true →
      q.push v = (.error .QueueFull, q) ∧
        q.push_ref v = (.error .QueueFull, q)) ∧
      (q.is_empty = true →
        q.pop = (.error .QueueEmpty, q) ∧
          q.pop_ref out = (.error .QueueEmpty, q, out) ∧
          q.front = .error .QueueEmpty ∧
          q.back = .error .QueueEmpty) := by
  constructor
  · intro hf
    constructor <;>
      simp [BasicTypedQueue.push, BasicTypedQueue.push_ref, hf]
  · intro he
    refine ⟨?_, ?_, ?_, ?_⟩ <;>
      simp [BasicTypedQueue.pop, BasicTypedQueue.pop_ref,
        BasicTypedQueue.front, BasicTypedQueue.back, he]

/-- Witness for C5: a full capacity-2 queue rejects a push unchanged, and an
empty capacity-2 queue rejects a pop unchanged. -/
theorem c5_error_contracts_witness :
    ((⟨2, 0, 0, [5, 6]⟩ : BasicTypedQueue Nat 2).push 9 =
        (.error .QueueFull, (⟨2, 0, 0, [5, 6]⟩ : BasicTypedQueue Nat 2))) ∧
      ((⟨0, 0, 0, [5, 6]⟩ : BasicTypedQueue Nat 2).pop =
        (.error .QueueEmpty, (⟨0, 0, 0, [5, 6]⟩ : BasicTypedQueue Nat 2))) :=
  ⟨((c5_error_contracts (⟨2, 0, 0, [5, 6]⟩ : BasicTypedQueue Nat 2) 9 0).1
      (by decide)).1,
    ((c5_error_contracts (⟨0, 0, 0, [5, 6]⟩ : BasicTypedQueue Nat 2) 9 0).2
      (by decide)).1⟩

/-- C6: capacity invariant. For every sequence of push, push_overwrite and
pop operations starting from the empty queue, `size() ≤ capacity()` holds at
every point (every prefix of a sequence is itself a sequence), and
`is_full()` is true exactly when `size() = capacity()` and `is_empty()`
exactly when `size() = 0`. -/
theorem c6_capacity_invariant [Inhabited T] (junk : List T)
    (ops : List (Op T)) :
    ((BasicTypedQueue.new junk : BasicTypedQueue T N).run ops).size ≤
        ((BasicTypedQueue.new junk : BasicTypedQueue T N).run ops).capacity ∧
      (((BasicTypedQueue.new junk : BasicTypedQueue T N).run ops).is_full =
          true ↔
        ((BasicTypedQueue.new junk : BasicTypedQueue T N).run ops).size =
          ((BasicTypedQueue.new junk : BasicTypedQueue T N).run
              ops).capacity) ∧
      (((BasicTypedQueue.new junk : BasicTypedQueue T N).run ops).is_empty =
          true ↔
        ((BasicTypedQueue.new junk : BasicTypedQueue T N).run ops).size =
          0) := by
  refine ⟨run_size_le ops _ (Nat.zero_le _), ?_, ?_⟩ <;>
    simp [BasicTypedQueue.is_full, BasicTypedQueue.is_empty,
      BasicTypedQueue.capacity]

/-- C7: error taxonomy. `QueueError` consists of exactly `QueueEmpty`,
`QueueFull` and `MutexPoisoned`; every shared-variant operation whose lock
acquisition fails because the mutex is poisoned returns `MutexPoisoned` and
performs no mutation of the queue state (nor of the caller's output storage);
the single-owner variant never produces `MutexPoisoned`. -/
theorem c7_error_taxonomy [Inhabited T] (q : ThreadSafeTypedQueue T N)
    (b : BasicTypedQueue T N) (v out : T) (hp : q.poisoned = true) :
    q.push v = (.error .MutexPoisoned, q) ∧
      q.push_ref v = (.error .MutexPoisoned, q) ∧
      q.push_overwrite v = (.error .MutexPoisoned, q) ∧
      q.push_ref_overwrite v = (.error .MutexPoisoned, q) ∧
      q.pop = (.error .MutexPoisoned, q) ∧
      q.pop_ref out = (.error .MutexPoisoned, q, out) ∧
      q.front = .error .MutexPoisoned ∧
      q.back = .error .MutexPoisoned ∧
      (b.push v).1 ≠ .error .MutexPoisoned ∧
      (b.push_overwrite v).1 ≠ .error .MutexPoisoned ∧
      (b.pop).1 ≠ .error .MutexPoisoned ∧
      (b.pop_ref out).1 ≠ .error .MutexPoisoned ∧
      b.front ≠ .error .MutexPoisoned ∧
      b.back ≠ .error .MutexPoisoned ∧
      ∀ e : QueueError,
        e = .QueueEmpty ∨ e = .QueueFull ∨ e = .MutexPoisoned := by
  refine ⟨?_, ?_, ?_, ?_, ?_, ?_, ?_, ?_, ?_, ?_, ?_, ?_, ?_, ?_, ?_⟩
  · simp [ThreadSafeTypedQueue.push, ThreadSafeTypedQueue.push_ref, hp]
  · simp [ThreadSafeTypedQueue.push_ref, hp]
  · simp [ThreadSafeTypedQueue.push_overwrite,
      ThreadSafeTypedQueue.push_ref_overwrite, hp]
  · simp [ThreadSafeTypedQueue.push_ref_overwrite, hp]
  · simp [ThreadSafeTypedQueue.pop, ThreadSafeTypedQueue.pop_ref, hp]
  · simp [ThreadSafeTypedQueue.pop_ref, hp]
  · simp [ThreadSafeTypedQueue.front, hp]
  · simp [ThreadSafeTypedQueue.back, hp]
  · unfold BasicTypedQueue.push BasicTypedQueue.push_ref
    split <;> simp
  · simp [BasicTypedQueue.push_overwrite, BasicTypedQueue.push_ref_overwrite]
  · by_cases hb0 : b.size = 0
    · rw [show b.pop = (.error .QueueEmpty, b) from by
        simp [BasicTypedQueue.pop, BasicTypedQueue.pop_ref,
          BasicTypedQueue.is_empty, hb0]]
      simp
    · rw [pop_eq_of_not_empty b hb0]
      simp
  · unfold BasicTypedQueue.pop_ref
    split <;> simp
  · unfold BasicTypedQueue.front
    split <;> simp
  · unfold BasicTypedQueue.back
    split <;> simp
  · intro e
    cases e <;> simp

/-- Witness for C7: a poisoned capacity-2 shared queue rejects a push with
`MutexPoisoned`, unchanged. -/
theorem c7_error_taxonomy_witness :
    (⟨1, true, ⟨0, 1, [5, 6]⟩⟩ : ThreadSafeTypedQueue Nat 2).push 9 =
      (.error .MutexPoisoned,
        (⟨1, true, ⟨0, 1, [5, 6]⟩⟩ : ThreadSafeTypedQueue Nat 2)) :=
  (c7_error_taxonomy (⟨1, true, ⟨0, 1, [5, 6]⟩⟩ : ThreadSafeTypedQueue Nat 2)
    (BasicTypedQueue.new [0, 0] : BasicTypedQueue Nat 2) 9 0 (by decide)).1

/-- C8 (amended): `push_overwrite` / `push_ref_overwrite` on the single-owner
variant always return `Ok`, and on the shared variant return `Ok` whenever
the lock is not poisoned (on a poisoned lock they return `MutexPoisoned`
like every other shared mutating operation — see the counterexample); on a
non-full queue (well-formed, and unpoisoned for the shared variant) their
effect on the state is exactly that of `push` / `push_ref` with the same
value. -/
theorem c8_overwrite_total [Inhabited T] (q : BasicTypedQueue T N)
    (r : ThreadSafeTypedQueue T N) (v : T) :
    (q.push_overwrite v).1 = .ok () ∧
      (q.push_ref_overwrite v).1 = .ok () ∧
      (q.size < N → q.push_overwrite v = q.push v) ∧
      (r.poisoned = false →
        (r.push_overwrite v).1 = .ok () ∧
          (r.push_ref_overwrite v).1 = .ok ()) ∧
      (r.poisoned = false → r.size < N →
        r.push_ref_overwrite v = r.push_ref v) := by
  refine ⟨rfl, rfl, push_overwrite_eq_push q v, ?_, ?_⟩
  · intro hp
    constructor <;>
      simp [ThreadSafeTypedQueue.push_overwrite,
        ThreadSafeTypedQueue.push_ref_overwrite, hp]
  · intro hp hlt
    simp [ThreadSafeTypedQueue.push_ref_overwrite,
      ThreadSafeTypedQueue.push_ref, ThreadSafeTypedQueue.is_full, hp,
      show r.size ≠ N by omega,
      Nat.min_eq_left (show r.size + 1 ≤ N by omega)]

/-- Witness for C8: on non-full queues the overwriting push coincides with
the plain push, and an unpoisoned shared overwriting push succeeds. -/
theorem c8_overwrite_total_witness :
    ((⟨1, 0, 1, [5, 6]⟩ : BasicTypedQueue Nat 2).push_overwrite 7 =
        (⟨1, 0, 1, [5, 6]⟩ : BasicTypedQueue Nat 2).push 7) ∧
      (((⟨1, false, ⟨0, 1, [5, 6]⟩⟩ : ThreadSafeTypedQueue Nat 2).push_ref_overwrite
          7).1 = .ok ()) :=
  ⟨(c8_overwrite_total (⟨1, 0, 1, [5, 6]⟩ : BasicTypedQueue Nat 2)
      (⟨1, false, ⟨0, 1, [5, 6]⟩⟩ : ThreadSafeTypedQueue Nat 2) 7).2.2.1
      (by decide),
    ((c8_overwrite_total (⟨1, 0, 1, [5, 6]⟩ : BasicTypedQueue Nat 2)
      (⟨1, false, ⟨0, 1, [5, 6]⟩⟩ : ThreadSafeTypedQueue Nat 2) 7).2.2.2.1
      (by decide)).2⟩

/-- C8 counterexample: the shared variant's `push_ref_overwrite` does return
an error — `MutexPoisoned` — when the mutex is poisoned, so "never returns
an error for every queue state" fails on the shared variant cited by the
claim. -/
theorem c8_counterexample :
    ((⟨0, true, ⟨0, 0, [0, 0]⟩⟩ : ThreadSafeTypedQueue Nat 2).push_ref_overwrite
        7).1 = .error .MutexPoisoned :=
  rfl

/-- C9: the by-value push variants delegate to the by-reference variants in
both implementations, so for every queue state and value they produce the
same result and the same resulting state. -/
theorem c9_ref_variants [Inhabited T] (q : BasicTypedQueue T N)
    (r : ThreadSafeTypedQueue T N) (v : T) :
    q.push v = q.push_ref v ∧
      q.push_overwrite v = q.push_ref_overwrite v ∧
      r.push v = r.push_ref v ∧
      r.push_overwrite v = r.push_ref_overwrite v :=
  ⟨rfl, rfl, rfl, rfl⟩

/-- C10: frame property of `pop_ref`. When called on an empty queue (with an
unpoisoned lock for the shared variant) it fails with `QueueEmpty` and the
caller-supplied output storage — threaded through the embedding as the third
component — is returned completely unchanged, as is the queue state. -/
theorem c10_pop_ref_frame [Inhabited T] (q : BasicTypedQueue T N)
    (r : ThreadSafeTypedQueue T N) (out : T) (hq : q.is_empty = true)
    (hrp : r.poisoned = false) (hr : r.is_empty = true) :
    q.pop_ref out = (.error .QueueEmpty, q, out) ∧
      r.pop_ref out = (.error .QueueEmpty, r, out) := by
  constructor
  · simp [BasicTypedQueue.pop_ref, hq]
  · simp [ThreadSafeTypedQueue.pop_ref, hr, hrp]

/-- Witness for C10: popping by reference from an empty capacity-2 queue of
either variant leaves the output storage `42` unchanged. -/
theorem c10_pop_ref_frame_witness :
    (⟨0, 1, 1, [5, 6]⟩ : BasicTypedQueue Nat 2).pop_ref 42 =
        (.error .QueueEmpty, (⟨0, 1, 1, [5, 6]⟩ : BasicTypedQueue Nat 2),
          42) ∧
      (⟨0, false, ⟨1, 1, [5, 6]⟩⟩ : ThreadSafeTypedQueue Nat 2).pop_ref 42 =
        (.error .QueueEmpty,
          (⟨0, false, ⟨1, 1, [5, 6]⟩⟩ : ThreadSafeTypedQueue Nat 2), 42) :=
  c10_pop_ref_frame (⟨0, 1, 1, [5, 6]⟩ : BasicTypedQueue Nat 2)
    (⟨0, false, ⟨1, 1, [5, 6]⟩⟩ : ThreadSafeTypedQueue Nat 2) 42
    (by decide) (by decide) (by decide)
